import Mathlib

/-!
Shallow embedding of the truthshield-pro backend (JavaScript) for
specification checking.  JavaScript numbers are modelled as exact
rationals (every value manipulated here is a small integer or a ratio of
small integers, far from any binary floating-point boundary), strings as
Lean strings / lists of characters, and `undefined` / `null` as `Option`.
-/

/- ---------------------------------------------------------------------
   Generic JS string helpers
--------------------------------------------------------------------- -/

/-- Characterwise lowercasing, modelling `String.prototype.toLowerCase`
(adequate for the ASCII keywords and contents considered here). -/
def jsLower (s : List Char) : List Char := s.map Char.toLower

/-- `needle` occurs verbatim at the start of `hay`. -/
def isPrefixCharsOf : List Char → List Char → Bool
  | [], _ => true
  | _ :: _, [] => false
  | c :: cs, d :: ds => c == d && isPrefixCharsOf cs ds

/-- `String.prototype.includes`: `needle` occurs contiguously in `hay`. -/
def containsSub (needle : List Char) : List Char → Bool
  | [] => isPrefixCharsOf needle []
  | d :: ds => isPrefixCharsOf needle (d :: ds) || containsSub needle ds

/- ---------------------------------------------------------------------
   Regex matcher for the fixed patterns of ai-detection.js

   Every regular expression in THREAT_PATTERNS has the shape
   `/lit₁.*lit₂.*…/i`: literal ASCII segments separated by `.*`.  In
   JavaScript `.` matches everything except the four line terminators,
   and `RegExp.prototype.test` searches for any occurrence: the pattern
   matches iff the string can be split as
   prefix ++ lit₁ ++ gap₁ ++ lit₂ ++ … ++ suffix with every gap free of
   line terminators and every literal matched case-insensitively.  The
   matcher below is a complete backtracking search over that existence
   semantics: every start position is tried for the first segment, and
   inside each `.*` gap every position reachable without crossing a line
   terminator is tried for the next segment.
--------------------------------------------------------------------- -/

/-- Case-insensitive prefix strip: if `lit` (case-insensitively) starts
`s`, return the rest of `s`. -/
def stripCI : List Char → List Char → Option (List Char)
  | [], s => some s
  | _ :: _, [] => none
  | c :: cs, d :: ds => if c.toLower == d.toLower then stripCI cs ds else none

theorem stripCI_length_le : ∀ (p s r : List Char),
    stripCI p s = some r → r.length ≤ s.length := by
  intro p
  induction p with
  | nil =>
      intro s r h
      simp [stripCI] at h
      simp [h]
  | cons c cs ih =>
      intro s r h
      cases s with
      | nil => simp [stripCI] at h
      | cons d ds =>
          simp only [stripCI] at h
          split at h
          · exact Nat.le_succ_of_le (ih ds r h)
          · exact absurd h (by simp)

/-- The four JavaScript line terminators (which `.` does not match). -/
def isLineTerm (c : Char) : Bool :=
  c.toNat == 0x0a || c.toNat == 0x0d || c.toNat == 0x2028 || c.toNat == 0x2029

/-- Backtracking search for the remaining segments inside a `.*` gap:
either the next segment starts right here (and the rest matches after
it), or the current character is no line terminator and the search goes
on one position further.  One unit of fuel per step; the remaining
string shrinks or, on a successful strip of a (possibly empty) segment,
the segment list shrinks, so `s.length + segs.length` fuel always
suffices (`matchGapGo_fuel`). -/
def matchGapGo : Nat → List (List Char) → List Char → Bool
  | _, [], _ => true
  | 0, _ :: _, _ => false
  | fuel + 1, seg :: rest, s =>
    (match stripCI seg s with
     | some r => matchGapGo fuel rest r
     | none => false)
    ||
    (match s with
     | [] => false
     | c :: s' => !isLineTerm c && matchGapGo fuel (seg :: rest) s')

/-- The fuel is irrelevant once it covers `s.length + segs.length`. -/
theorem matchGapGo_fuel : ∀ (fuel fuel' : Nat) (segs : List (List Char)) (s : List Char),
    s.length + segs.length ≤ fuel → s.length + segs.length ≤ fuel' →
    matchGapGo fuel segs s = matchGapGo fuel' segs s := by
  intro fuel
  induction fuel with
  | zero =>
      intro fuel' segs s h _
      have : segs = [] := by
        cases segs with
        | nil => rfl
        | cons a l => simp at h
      subst this
      cases fuel' <;> simp [matchGapGo]
  | succ n ih =>
      intro fuel' segs s h h'
      cases segs with
      | nil => cases fuel' <;> simp [matchGapGo]
      | cons seg rest =>
          cases fuel' with
          | zero => simp at h'
          | succ m =>
              simp only [List.length_cons] at h h'
              cases s with
              | nil =>
                  simp only [matchGapGo]
                  congr 1
                  · cases hs : stripCI seg [] with
                    | none => rfl
                    | some r =>
                        have hr := stripCI_length_le seg [] r hs
                        simp only [List.length_nil] at hr
                        exact ih m rest r (by omega) (by omega)
              | cons c s' =>
                  simp only [List.length_cons] at h h'
                  simp only [matchGapGo]
                  congr 1
                  · cases hs : stripCI seg (c :: s') with
                    | none => rfl
                    | some r =>
                        have hr := stripCI_length_le seg (c :: s') r hs
                        simp only [List.length_cons] at hr
                        exact ih m rest r (by omega) (by omega)
                  · congr 1
                    exact ih m (seg :: rest) s'
                      (by simp only [List.length_cons]; omega)
                      (by simp only [List.length_cons]; omega)

/-- Gap search with always-sufficient fuel. -/
def matchGapFrom (segs : List (List Char)) (s : List Char) : Bool :=
  matchGapGo (s.length + segs.length) segs s

/-- The segments match starting exactly at this position: the first
segment is stripped here, the rest are found across `.*` gaps. -/
def matchSegsHere (segs : List (List Char)) (s : List Char) : Bool :=
  match segs with
  | [] => true
  | seg :: rest =>
    match stripCI seg s with
    | some r => matchGapFrom rest r
    | none => false

/-- Unanchored search: try the match at every start position. -/
def searchFrom (segs : List (List Char)) : List Char → Bool
  | [] => matchSegsHere segs []
  | c :: s' => matchSegsHere segs (c :: s') || searchFrom segs s'

/-- `RegExp.prototype.test` for a pattern given by its literal segments
(the `/lit₁.*lit₂.*…/i` shape used throughout THREAT_PATTERNS). -/
def regexTest (p : List String) (content : List Char) : Bool :=
  searchFrom (p.map String.toList) content

/-- Sanity: a match may start after a failed earlier start, even across
a line terminator (/verify.*account/i on "verify\nverify account" is
true in JavaScript: the match begins at the second "verify"). -/
theorem regexTest_restart_after_newline :
    regexTest ["verify", "account"]
      (String.toList "verify\nverify account") = true := by decide

/-- Sanity: a `.*` gap cannot cross a line terminator
(/verify.*account/i on "verify\naccount" is false in JavaScript). -/
theorem regexTest_gap_stops_at_newline :
    regexTest ["verify", "account"] (String.toList "verify\naccount") = false := by decide

/- ---------------------------------------------------------------------
   URL extraction: the loop
     while ((match = urlRegex.exec(content)) !== null) ...
   with urlRegex = /https?:\/\/([^\/\s]+)/g.  Successive non-overlapping
   matches; the captured host is the maximal nonempty run of characters
   that are neither '/' nor JS whitespace after the scheme.
--------------------------------------------------------------------- -/

/-- Membership in the JavaScript `\s` character class. -/
def jsWhitespaceChar (c : Char) : Bool :=
  let n := c.toNat
  n == 0x20 || n == 0x09 || n == 0x0a || n == 0x0b || n == 0x0c || n == 0x0d ||
  n == 0xa0 || n == 0x1680 || (0x2000 ≤ n && n ≤ 0x200a) ||
  n == 0x2028 || n == 0x2029 || n == 0x202f || n == 0x205f ||
  n == 0x3000 || n == 0xfeff

/-- A character allowed in the captured host: `[^\/\s]`. -/
def isHostChar (c : Char) : Bool := !(c == '/') && !(jsWhitespaceChar c)

/-- Case-sensitive prefix strip. -/
def stripLit : List Char → List Char → Option (List Char)
  | [], s => some s
  | _ :: _, [] => none
  | c :: cs, d :: ds => if c == d then stripLit cs ds else none

/-- Split off the maximal host-character run. -/
def takeHost : List Char → List Char × List Char
  | [] => ([], [])
  | c :: s =>
    if isHostChar c then ((c :: (takeHost s).1), (takeHost s).2)
    else ([], c :: s)

theorem stripLit_length : ∀ (p s r : List Char),
    stripLit p s = some r → s.length = p.length + r.length := by
  intro p
  induction p with
  | nil => intro s r h; simp [stripLit] at h; simp [h]
  | cons c cs ih =>
      intro s r h
      cases s with
      | nil => simp [stripLit] at h
      | cons d ds =>
          simp only [stripLit] at h
          split at h
          · have := ih ds r h
            simp [List.length_cons, this]
            omega
          · exact absurd h (by simp)

theorem takeHost_snd_le : ∀ (s : List Char), (takeHost s).2.length ≤ s.length := by
  intro s
  induction s with
  | nil => simp [takeHost]
  | cons c t ih =>
      simp only [takeHost]
      split
      · simpa using Nat.le_succ_of_le ih
      · simp

/-- One scan step per unit of fuel: at the current position try to match
`http://` or `https://` followed by a nonempty host; on success emit the
host and resume after it (the regexp's lastIndex), otherwise advance one
character.  Each step consumes at least one character, so fuel equal to
the string length is always sufficient (`extractUrlsGo_fuel`). -/
def extractUrlsGo : Nat → List Char → List (List Char)
  | 0, _ => []
  | _ + 1, [] => []
  | fuel + 1, c :: t =>
    match stripLit (String.toList "http://") (c :: t) with
    | some r =>
      if (takeHost r).1.isEmpty then extractUrlsGo fuel t
      else (takeHost r).1 :: extractUrlsGo fuel (takeHost r).2
    | none =>
      match stripLit (String.toList "https://") (c :: t) with
      | some r =>
        if (takeHost r).1.isEmpty then extractUrlsGo fuel t
        else (takeHost r).1 :: extractUrlsGo fuel (takeHost r).2
      | none => extractUrlsGo fuel t

/-- All hosts captured by the global url regex scan, in order. -/
def extractUrls (s : List Char) : List (List Char) := extractUrlsGo s.length s

/-- The fuel is irrelevant as soon as it covers the string length, so
`extractUrls` is the fixpoint the while-loop computes. -/
theorem extractUrlsGo_fuel : ∀ (fuel fuel' : Nat) (s : List Char),
    s.length ≤ fuel → s.length ≤ fuel' →
    extractUrlsGo fuel s = extractUrlsGo fuel' s := by
  intro fuel
  induction fuel with
  | zero =>
      intro fuel' s h _
      have : s = [] := by
        cases s with
        | nil => rfl
        | cons c t => simp at h
      subst this
      cases fuel' <;> simp [extractUrlsGo]
  | succ n ih =>
      intro fuel' s h h'
      cases s with
      | nil => cases fuel' <;> simp [extractUrlsGo]
      | cons c t =>
          cases fuel' with
          | zero => simp at h'
          | succ m =>
              simp only [List.length_cons] at h h'
              have ht : t.length ≤ n := by omega
              have ht' : t.length ≤ m := by omega
              simp only [extractUrlsGo]
              cases h7 : stripLit (String.toList "http://") (c :: t) with
              | some r =>
                  have hr : (c :: t).length = 7 + r.length := by
                    simpa using stripLit_length _ _ _ h7
                  have hrem : (takeHost r).2.length ≤ t.length := by
                    have := takeHost_snd_le r
                    simp at hr
                    omega
                  by_cases he : (takeHost r).1.isEmpty
                  · simp [he]
                    rw [ih m t ht ht']
                  · simp [he]
                    rw [ih m (takeHost r).2 (by omega) (by omega)]
              | none =>
                  cases h8 : stripLit (String.toList "https://") (c :: t) with
                  | some r =>
                      have hr : (c :: t).length = 8 + r.length := by
                        simpa using stripLit_length _ _ _ h8
                      have hrem : (takeHost r).2.length ≤ t.length := by
                        have := takeHost_snd_le r
                        simp at hr
                        omega
                      by_cases he : (takeHost r).1.isEmpty
                      · simp [he]
                        rw [ih m t ht ht']
                      · simp [he]
                        rw [ih m (takeHost r).2 (by omega) (by omega)]
                  | none =>
                      rw [ih m t ht ht']

/- ---------------------------------------------------------------------
   THREAT_PATTERNS (ai-detection.js lines 10-81).  Each regex
   /lit₁.*lit₂…/i is recorded by its literal segments.
--------------------------------------------------------------------- -/

structure ThreatPatternsT where
  keywords : List String
  domains : Option (List String)
  patterns : List (List String)
deriving DecidableEq

def phishingPatterns : ThreatPatternsT where
  keywords := ["verify your account", "password expiration", "suspended account",
    "urgent action required", "click here", "limited time offer",
    "free gift", "account verification", "security alert",
    "unauthorized login attempt", "update your information"]
  domains := some ["paypal-security.com", "apple-verify.net", "amazon-update.com"]
  patterns := [["verify", "account"], ["password", "expir"], ["suspended", "account"],
    ["urgent", "action"], ["click", "here"], ["free", "gift"]]

def malwarePatterns : ThreatPatternsT where
  keywords := ["virus detected", "system infected", "download now",
    "install update", "security patch", "anti-virus",
    "pc scan", "remove threats", "system cleaner"]
  domains := none
  patterns := [["virus", "detected"], ["system", "infected"],
    ["download", "now"], ["install", "update"]]

def socialEngineeringPatterns : ThreatPatternsT where
  keywords := ["trust me", "emergency", "quick money",
    "guaranteed profit", "no risk", "limited spots",
    "exclusive offer", "once in a lifetime"]
  domains := none
  patterns := [["trust", "me"], ["emergency", "need"],
    ["quick", "money"], ["guaranteed", "profit"]]

def financialScamPatterns : ThreatPatternsT where
  keywords := ["investment opportunity", "bitcoin", "crypto",
    "double your money", "risk-free", "get rich quick",
    "stock tips", "forex trading", "binary options"]
  domains := none
  patterns := [["investment", "opportunity"], ["double", "money"],
    ["risk-free"], ["get", "rich", "quick"]]

def predatorBehaviorPatterns : ThreatPatternsT where
  keywords := ["where do you live", "how old are you", "send picture",
    "meet in person", "keep this secret", "your parents",
    "alone tonight", "private chat"]
  domains := none
  patterns := [["where", "live"], ["how", "old"], ["send", "picture"],
    ["meet", "person"], ["keep", "secret"]]

/-- Object.entries(THREAT_PATTERNS), in insertion order. -/
def THREAT_PATTERNS : List (String × ThreatPatternsT) :=
  [("phishing", phishingPatterns), ("malware", malwarePatterns),
   ("social_engineering", socialEngineeringPatterns),
   ("financial_scam", financialScamPatterns),
   ("predator_behavior", predatorBehaviorPatterns)]

/- ---------------------------------------------------------------------
   AIDetectionEngine.detectThreatType (ai-detection.js lines 156-203)
--------------------------------------------------------------------- -/

structure DetectResult where
  detected : Bool
  confidence : ℚ
  indicators : List String
deriving DecidableEq

/-- The engine's confidenceThreshold (0.7). -/
def confidenceThreshold : ℚ := 7/10

/-- The keywords of `tp` contained case-insensitively in `content`. -/
def kwHits (content : String) (tp : ThreatPatternsT) : List String :=
  tp.keywords.filter (fun k => containsSub (jsLower k.toList) (jsLower content.toList))

/-- The (0-based index, pattern) pairs of `tp` whose regex matches `content`. -/
def patHits (content : String) (tp : ThreatPatternsT) : List (ℕ × List String) :=
  tp.patterns.enum.filter (fun p => regexTest p.2 content.toList)

/-- The extracted url hosts containing one of `tp`'s suspicious domains
(empty when the category declares no domain list). -/
def badHosts (content : String) (tp : ThreatPatternsT) : List (List Char) :=
  match tp.domains with
  | none => []
  | some ds =>
    (extractUrls content.toList).filter (fun h => ds.any (fun d => containsSub d.toList h))

/-- The accumulated matchCount: one per matched keyword, one per matched
regex, plus two per suspicious-domain url. -/
def matchCount (content : String) (tp : ThreatPatternsT) : ℕ :=
  (kwHits content tp).length + (patHits content tp).length + 2 * (badHosts content tp).length

/-- totalPatterns = keywords + regex patterns (domains not counted). -/
def totalPatterns (tp : ThreatPatternsT) : ℕ :=
  tp.keywords.length + tp.patterns.length

def detectThreatType (content : String) (tp : ThreatPatternsT) : DetectResult :=
  let confidence : ℚ :=
    if 0 < totalPatterns tp then (matchCount content tp : ℚ) / (totalPatterns tp : ℚ) else 0
  { detected := if 0 < totalPatterns tp then decide (confidenceThreshold < confidence) else false
    confidence := confidence
    indicators :=
      (kwHits content tp).map (fun k => "keyword: " ++ k)
        ++ (patHits content tp).map (fun p => "pattern_" ++ toString (p.1 + 1))
        ++ (badHosts content tp).map (fun h => "suspicious_domain: " ++ String.mk h) }

/-- Sanity: an innocuous message matches nothing. -/
theorem matchCount_sanity_none : matchCount "hello there" phishingPatterns = 0 := by decide

/-- Sanity: "please Verify Your Account now" hits the keyword
"verify your account" (case-insensitively) and the regex
/verify.*account/i, and nothing else. -/
theorem matchCount_sanity_two :
    matchCount "please Verify Your Account now" phishingPatterns = 2 := by decide

/-- Sanity: the url scan captures the host up to the next whitespace. -/
theorem extractUrls_sanity :
    extractUrls (String.toList "see http://paypal-security.com now") =
      [String.toList "paypal-security.com"] := by decide

/- ---------------------------------------------------------------------
   The natural library's TfIdf store, as used by ai-detection.js.

   natural's TfIdf.addDocument(text, key) tokenizes the lowercased text
   and stores the object `\x7b __key: key, term₁: count₁, ... \x7d`.  The
   numeric tf·idf measure reported by `tfidf.tfidfs(content, cb)`
   involves natural logarithms, so it is kept abstract here as a
   `measure` argument giving the measure of the analysed content against
   the i-th stored document; everything downstream of the measures
   (grouping, argmax, confidence) is modelled concretely.
--------------------------------------------------------------------- -/

/-- A document as stored by natural's TfIdf: the training key (stored
under the property name `__key`) plus the per-term token counts. -/
structure JSDoc where
  docKey : String
  termCounts : List (String × ℕ)
deriving DecidableEq

/-- The JavaScript property read `documents[i].category` (ai-detection.js
line 210).  The stored object has properties `__key` and one per token,
so `category` resolves to the token count of the word "category" when
present and to `undefined` (`none`) otherwise. -/
def categoryProp (d : JSDoc) : Option ℕ :=
  d.termCounts.lookup "category"

/-- Using a JavaScript value as an object key coerces it to a string:
`undefined` becomes the string "undefined", a number its decimal text. -/
def jsKeyStr : Option ℕ → String
  | none => "undefined"
  | some n => toString n

/-- The eight training documents added by AIDetectionEngine.init
(ai-detection.js lines 92-105), tokenized as natural's WordTokenizer
does (split on non-alphanumeric characters, after lowercasing).
natural's addDocument also drops stopwords ("your", "now", "you", ...)
from the stored counts; they are kept here, which is immaterial to every
theorem below since only the — absent either way — "category" property
is ever read. -/
def trainingDocs : List JSDoc :=
  [⟨"phishing", [("verify",1),("your",1),("account",1),("now",1),("urgent",1),("action",1),("required",1)]⟩,
   ⟨"phishing", [("your",1),("password",1),("will",1),("expire",1),("soon",1),("click",1),("here",1)]⟩,
   ⟨"malware", [("virus",1),("detected",1),("on",1),("your",1),("computer",1),("download",1),("antivirus",1)]⟩,
   ⟨"malware", [("system",1),("infected",1),("install",1),("security",1),("update",1),("now",1)]⟩,
   ⟨"financial_scam", [("investment",1),("opportunity",1),("double",1),("your",1),("money",1),("fast",1)]⟩,
   ⟨"financial_scam", [("bitcoin",1),("trading",1),("guaranteed",1),("profits",1),("no",1),("risk",1)]⟩,
   ⟨"predator_behavior", [("where",1),("do",1),("you",1),("live",1),("can",1),("we",1),("meet",1),("alone",1)]⟩,
   ⟨"predator_behavior", [("how",1),("old",1),("are",1),("you",1),("send",1),("me",1),("your",1),("picture",1)]⟩]

/-- `scores[category] = (scores[category] || 0) + measure`, on a JS
object modelled as an association list in insertion order (the order
`Object.entries` later reports). -/
def addScore (scores : List (String × ℚ)) (k : String) (v : ℚ) : List (String × ℚ) :=
  match scores with
  | [] => [(k, v)]
  | (k', v') :: rest => if k' == k then (k', v' + v) :: rest else (k', v') :: addScore rest k v

structure TfidfResult where
  category : Option String
  confidence : ℚ
  scores : List (String × ℚ)
deriving DecidableEq

/-- One step of the tfidfs callback: add the measure to the score bucket
of `documents[i].category` and accumulate the absolute total. -/
def tfidfStep (measure : ℕ → ℚ) (a : List (String × ℚ) × ℚ)
    (p : ℕ × JSDoc) : List (String × ℚ) × ℚ :=
  (addScore a.1 (jsKeyStr (categoryProp p.2)) (measure p.1), a.2 + |measure p.1|)

/-- One step of the argmax loop (strict `score > maxScore`, maxScore
starting at 0 and bestCategory at null). -/
def bestStep (b : ℚ × Option String) (p : String × ℚ) : ℚ × Option String :=
  if b.1 < p.2 then (p.2, some p.1) else b

/-- AIDetectionEngine.classifyWithTFIDF (ai-detection.js lines 205-233),
with `measure i` the tf·idf measure of the analysed content against the
i-th document of `docs`. -/
def classifyWithTFIDF (measure : ℕ → ℚ) (docs : List JSDoc) : TfidfResult :=
  let acc := docs.enum.foldl (tfidfStep measure) ([], 0)
  let best := acc.1.foldl bestStep (0, none)
  { category := best.2
    confidence := if 0 < acc.2 then best.1 / acc.2 else 0
    scores := acc.1 }

/- ---------------------------------------------------------------------
   AIDetectionEngine.analyzeContent and its helpers
--------------------------------------------------------------------- -/

structure Threat where
  type : Option String
  confidence : ℚ
  indicators : List String
  severity : String
deriving DecidableEq

structure Analysis where
  threats : List Threat
  confidence : ℚ
  riskLevel : String
  indicators : List String
  recommendations : List String
deriving DecidableEq

/-- Indexing the base-severity object by a JS value coerces the key to a
string; `null` indexes as the (absent) key "null". -/
def jsPropKey : Option String → String
  | some s => s
  | none => "null"

/-- AIDetectionEngine.calculateSeverity (ai-detection.js lines 235-251). -/
def calculateSeverity (threatType : String) (confidence : ℚ) : String :=
  let baseSeverity :=
    if threatType == "phishing" then "high"
    else if threatType == "malware" then "high"
    else if threatType == "financial_scam" then "medium"
    else if threatType == "social_engineering" then "medium"
    else if threatType == "predator_behavior" then "critical"
    else "low"
  if 9/10 < confidence then
    if baseSeverity == "medium" then "high"
    else if baseSeverity == "high" then "critical"
    else baseSeverity
  else baseSeverity

/-- AIDetectionEngine.calculateOverallConfidence (lines 253-258). -/
def calculateOverallConfidence (threats : List Threat) : ℚ :=
  if threats.isEmpty then 0
  else (threats.map Threat.confidence).sum / threats.length

/-- The severityWeights lookup of determineRiskLevel; an unlisted
severity reads as `undefined` (`none`). -/
def severityWeight (s : String) : Option ℚ :=
  if s == "low" then some 1
  else if s == "medium" then some 2
  else if s == "high" then some 3
  else if s == "critical" then some 4
  else none

/-- AIDetectionEngine.determineRiskLevel (ai-detection.js lines 260-278).
A `none` weight makes the JS weighted sum NaN, for which every
threshold comparison is false, hence the `"low"` fallback.  One step
of the reduce: `score + threat.confidence * severityWeights[severity]`. -/
def riskStep (acc : Option ℚ) (t : Threat) : Option ℚ := do
  let a ← acc
  let w ← severityWeight t.severity
  pure (a + t.confidence * w)

/-- AIDetectionEngine.determineRiskLevel (ai-detection.js lines 260-278),
reducing with riskStep from 0. -/
def determineRiskLevel (threats : List Threat) : String :=
  if threats.isEmpty then "low"
  else
    match threats.foldl riskStep (some (0 : ℚ)) with
    | none => "low"
    | some w =>
      if 3 ≤ w then "critical"
      else if 2 ≤ w then "high"
      else if 1 ≤ w then "medium"
      else "low"

/-- The per-type recommendation texts of generateRecommendations. -/
def recsFor (t : Option String) : List String :=
  if t == some "phishing" then
    ["Do not click any links in this message",
     "Verify the sender through official channels",
     "Report this as phishing to the platform"]
  else if t == some "malware" then
    ["Do not download any attachments",
     "Run a security scan on your device",
     "Keep your antivirus software updated"]
  else if t == some "predator_behavior" then
    ["Do not share personal information",
     "Block and report this user immediately",
     "Inform a trusted adult about this interaction"]
  else if t == some "financial_scam" then
    ["Be cautious of investment opportunities",
     "Research the company through official sources",
     "Never send money to unknown individuals"]
  else []

/-- `[...new Set(list)]`: first-occurrence de-duplication. -/
def jsSetDedup (l : List String) : List String :=
  l.foldl (fun acc x => if x ∈ acc then acc else acc ++ [x]) []

/-- AIDetectionEngine.generateRecommendations (lines 280-310). -/
def generateRecommendations (threats : List Threat) : List String :=
  jsSetDedup ((threats.map (fun t => recsFor t.type)).flatten)

/-- The engine's mutable state: the `initialized` flag plus the
module-level `tfidf` document store that `init` appends to. -/
structure EngineState where
  initialized : Bool
  docs : List JSDoc
deriving DecidableEq

/-- AIDetectionEngine.init (lines 90-109): adds the eight training
documents to the shared TfIdf store and marks the engine initialized. -/
def initEngine (σ : EngineState) : EngineState :=
  { initialized := true, docs := σ.docs ++ trainingDocs }

/-- The state after `new AIDetectionEngine()`: the constructor runs
`init()` whose body is synchronous. -/
def freshEngine : EngineState := initEngine { initialized := false, docs := [] }

/-- AIDetectionEngine.analyzeContent (ai-detection.js lines 111-154) as
a state transformer.  `measureFn content docs i` abstracts the tf·idf
measure of `content` against document `i` of `docs`. -/
def analyzeContentS (measureFn : String → List JSDoc → ℕ → ℚ)
    (σ : EngineState) (content : String) : Analysis × EngineState :=
  let σ' := if σ.initialized then σ else initEngine σ
  let patThreats := THREAT_PATTERNS.filterMap (fun p =>
    let r := detectThreatType content p.2
    if r.detected then
      some { type := some p.1, confidence := r.confidence, indicators := r.indicators,
             severity := calculateSeverity p.1 r.confidence }
    else none)
  let tfidfResults := classifyWithTFIDF (measureFn content σ'.docs) σ'.docs
  let threats :=
    if confidenceThreshold < tfidfResults.confidence then
      patThreats ++ [{ type := tfidfResults.category, confidence := tfidfResults.confidence,
                       indicators := ["AI-pattern-detected"],
                       severity := calculateSeverity (jsPropKey tfidfResults.category)
                         tfidfResults.confidence }]
    else patThreats
  ({ threats := threats
     confidence := calculateOverallConfidence threats
     riskLevel := determineRiskLevel threats
     indicators := []
     recommendations := generateRecommendations threats }, σ')

/-- A sequence of analyzeContent calls, tracking only the engine state. -/
def runAnalyses (measureFn : String → List JSDoc → ℕ → ℚ) :
    EngineState → List String → EngineState
  | σ, [] => σ
  | σ, c :: cs => runAnalyses measureFn (analyzeContentS measureFn σ c).2 cs

/- ---------------------------------------------------------------------
   GameProgress.js: the gameSession schema's score/accuracy ranges and
   the instance methods addQuestionResult / calculateScore /
   completeSession, plus the pre('save') accuracy hook.
--------------------------------------------------------------------- -/

/-- The schema's difficulty enum (required, so always one of these). -/
inductive Difficulty
  | easy | medium | hard | expert
deriving DecidableEq

/-- difficultyMultiplier of calculateScore (lines 143-148). -/
def difficultyMultiplier : Difficulty → ℚ
  | .easy => 1
  | .medium => 3/2
  | .hard => 2
  | .expert => 3

/-- A sessionData.questions entry; only isCorrect is ever read by the
schema methods. -/
structure QuestionData where
  isCorrect : Bool
deriving DecidableEq

/-- The mutable fields of a GameSession document that the instance
methods read or write. -/
structure GameSessionState where
  difficulty : Difficulty
  score : ℚ
  timeSpent : ℚ
  correctAnswers : ℕ
  totalQuestions : ℕ
  accuracy : ℚ
  completed : Bool
  questions : List QuestionData
deriving DecidableEq

/-- A newly created session: the schema defaults (score 0, timeSpent 0,
correctAnswers 0, totalQuestions 0, accuracy 0, completed false). -/
def freshSession (d : Difficulty) : GameSessionState :=
  { difficulty := d, score := 0, timeSpent := 0, correctAnswers := 0,
    totalQuestions := 0, accuracy := 0, completed := false, questions := [] }

/-- gameSessionSchema.methods.calculateScore (lines 140-157).  Note that
it reads `this.accuracy`, which only the pre-save hook updates. -/
def calculateScore (σ : GameSessionState) : GameSessionState :=
  let baseScore : ℚ := (σ.correctAnswers : ℚ) * 10
  let accuracyBonus : ℚ := σ.accuracy * 2
  let timePenalty : ℚ := max 0 ((σ.timeSpent - 300) / 10)
  { σ with
    score := max 0
      ((baseScore + accuracyBonus) * difficultyMultiplier σ.difficulty - timePenalty) }

/-- gameSessionSchema.methods.addQuestionResult (lines 128-137). -/
def addQuestionResult (σ : GameSessionState) (q : QuestionData) : GameSessionState :=
  calculateScore
    { σ with questions := σ.questions ++ [q],
             totalQuestions := σ.totalQuestions + 1,
             correctAnswers := σ.correctAnswers + (if q.isCorrect then 1 else 0) }

/-- Math.round: round half away from zero is irrelevant here (arguments
are nonnegative), so floor(x + 1/2) is used. -/
def jsRound (q : ℚ) : ℤ := ⌊q + 1/2⌋

/-- gameSessionSchema.methods.completeSession (lines 160-167); `elapsed`
is the rounded wall-clock difference in seconds. -/
def completeSession (σ : GameSessionState) (elapsed : ℤ) : GameSessionState :=
  calculateScore { σ with completed := true, timeSpent := (elapsed : ℚ) }

/-- gameSessionSchema.pre('save') (lines 120-125). -/
def applyPreSave (σ : GameSessionState) : GameSessionState :=
  if 0 < σ.totalQuestions then
    { σ with accuracy := (jsRound (((σ.correctAnswers : ℚ) / σ.totalQuestions) * 100) : ℚ) }
  else σ

/-- Session states reachable from a fresh session through the schema
methods (and saves). -/
inductive ReachableSession : GameSessionState → Prop
  | fresh (d : Difficulty) : ReachableSession (freshSession d)
  | addQ {σ} (q : QuestionData) : ReachableSession σ → ReachableSession (addQuestionResult σ q)
  | complete {σ} (elapsed : ℤ) : ReachableSession σ → ReachableSession (completeSession σ elapsed)
  | save {σ} : ReachableSession σ → ReachableSession (applyPreSave σ)

/-- n consecutive correct answers. -/
def addCorrectN : ℕ → GameSessionState → GameSessionState
  | 0, σ => σ
  | n + 1, σ => addQuestionResult (addCorrectN n σ) ⟨true⟩

/- ---------------------------------------------------------------------
   middleware/validation.js: handleValidationErrors
--------------------------------------------------------------------- -/

/-- The JSON body sent on validation failure. -/
structure ValidationErrorBody where
  status : String
  message : String
  errors : List String
deriving DecidableEq

/-- What an express middleware does with a request: either it ends the
request with a response (the downstream handler never runs) or it calls
next(), forwarding the unchanged request to the next handler. -/
inductive MwOutcome
  | respond (status : ℕ) (body : ValidationErrorBody)
  | next
deriving DecidableEq

/-- handleValidationErrors (validation.js lines 3-13), as a function of
the declared rules' failure messages collected by validationResult. -/
def handleValidationErrors (errors : List String) : MwOutcome :=
  if errors.isEmpty then .next
  else .respond 400 { status := "error", message := "Validation failed", errors := errors }

/- ---------------------------------------------------------------------
   middleware/auth.js: protect
--------------------------------------------------------------------- -/

/-- The two request headers protect reads (none = absent header). -/
structure AuthHeaders where
  authorization : Option String
  xTruthshieldToken : Option String

/-- A decoded JWT payload: the fields protect reads. -/
structure DecodedToken where
  id : String
  iat : ℤ

/-- The user document returned by the lookup.  protect reads no field
of it: the only use, `user.changedPasswordAfter(decoded.iat)` at
auth.js line 37, names a method the User model does not define. -/
structure AuthUser where
  id : String
deriving DecidableEq

/-- What protect does with the request.  `proceed` mirrors the source's
`req.user = user; next()` lines; they turn out to be unreachable. -/
inductive AuthOutcome
  | reject (status : ℕ) (message : String)
  | proceed (user : AuthUser)
deriving DecidableEq

/-- The token extraction of protect (auth.js lines 7-13): a Bearer
Authorization header wins (its second space-separated part, possibly
absent); otherwise the x-truthshield-token header when truthy. -/
def jsToken (h : AuthHeaders) : Option String :=
  let fromX : Option String :=
    match h.xTruthshieldToken with
    | some t => if t == "" then none else some t
    | none => none
  match h.authorization with
  | some a =>
    if a == "" then fromX
    else if a.startsWith "Bearer" then (a.splitOn " ").get? 1
    else fromX
  | none => fromX

/-- The token after the `if (!token)` falsiness check: an empty string
behaves like an absent token. -/
def effToken (h : AuthHeaders) : Option String :=
  match jsToken h with
  | some t => if t == "" then none else some t
  | none => none

/-- middleware/auth.js protect (lines 5-59).  `verify` abstracts
jwt.verify against the configured secret (none = verification throws),
`findById` the User lookup (none = no such user).  When both succeed,
line 37 evaluates `user.changedPasswordAfter(decoded.iat)`; the User
model (src/models/User.js) defines no `changedPasswordAfter` method, so
the call throws TypeError and the inner catch (lines 46-51) answers 401
"Not authorized to access this route" — the `req.user = user; next()`
lines below it never run. -/
def protect (verify : String → Option DecodedToken)
    (findById : String → Option AuthUser) (h : AuthHeaders) : AuthOutcome :=
  match effToken h with
  | none => .reject 401 "Not authorized to access this route"
  | some t =>
    match verify t with
    | none => .reject 401 "Not authorized to access this route"
    | some dec =>
      match findById dec.id with
      | none => .reject 401 "User no longer exists"
      | some _ => .reject 401 "Not authorized to access this route"

/- ---------------------------------------------------------------------
   utils/encryption.js: encrypt / decrypt over an abstract AES-256-GCM
   primitive.  crypto.createCipher(alg, password) derives key and iv
   deterministically from the password (EVP_BytesToKey), so encryption
   is a function of (password, plaintext); the random `iv` field that
   encrypt stores alongside the ciphertext is never given to the cipher
   and decrypt ignores it.  `enc` maps (password, plaintext) to
   (ciphertext hex, auth tag hex); `dec` maps (password, ciphertext,
   authTag) to the recovered plaintext, none when authentication fails
   (the code's thrown 'Failed to decrypt data').
--------------------------------------------------------------------- -/

structure EncryptedRecord where
  iv : String
  data : String
  authTag : String
deriving DecidableEq

/-- EncryptionUtils.encrypt (encryption.js lines 13-32); `ivHex` is the
hex of the 16 random bytes, stored but unused by the cipher. -/
def encryptU (enc : String → String → String × String)
    (key : String) (ivHex : String) (text : String) : EncryptedRecord :=
  { iv := ivHex, data := (enc key text).1, authTag := (enc key text).2 }

/-- EncryptionUtils.decrypt (encryption.js lines 34-51). -/
def decryptU (dec : String → String → String → Option String)
    (key : String) (r : EncryptedRecord) : Option String :=
  dec key r.data r.authTag

/- ---------------------------------------------------------------------
   HelperUtils.paginate (utils/helpers.js lines 409-435)
--------------------------------------------------------------------- -/

structure PageMarker where
  page : ℕ
  limit : ℕ
deriving DecidableEq

structure PaginateResult (α : Type) where
  next : Option PageMarker
  previous : Option PageMarker
  total : ℕ
  totalPages : ℕ
  currentPage : ℕ
  data : List α
deriving DecidableEq

/-- Math.ceil(a / b) on naturals (b > 0). -/
def jsCeilDiv (a b : ℕ) : ℕ := (a + b - 1) / b

/-- Array.prototype.slice(s, e) for in-range nonnegative arguments. -/
def jsSlice {α : Type} (l : List α) (s e : ℕ) : List α := (l.drop s).take (e - s)

def paginate {α : Type} (arr : List α) (page limit : ℕ) : PaginateResult α :=
  let startIndex := (page - 1) * limit
  let endIndex := page * limit
  { next := if endIndex < arr.length then some ⟨page + 1, limit⟩ else none
    previous := if 0 < startIndex then some ⟨page - 1, limit⟩ else none
    total := arr.length
    totalPages := jsCeilDiv arr.length limit
    currentPage := page
    data := jsSlice arr startIndex endIndex }

/- ---------------------------------------------------------------------
   Claims
--------------------------------------------------------------------- -/

/-- C7: whenever any declared field validation rule fails (the collected
error list is nonempty), handleValidationErrors responds 400 with status
"error" and the field-level messages, never invoking the route handler;
when every rule passes it forwards the request unchanged via next(). -/
theorem c7_handleValidationErrors_spec (errors : List String) :
    (errors ≠ [] → handleValidationErrors errors =
      .respond 400 { status := "error", message := "Validation failed", errors := errors }) ∧
    (errors = [] → handleValidationErrors errors = .next) := by
  constructor
  · intro h
    simp [handleValidationErrors, h]
  · intro h
    simp [handleValidationErrors, h]

/-- Witness for C7 at a nonempty and at an empty error list. -/
theorem c7_handleValidationErrors_spec_witness :
    handleValidationErrors ["Please provide a valid email"] =
      .respond 400 { status := "error", message := "Validation failed",
                     errors := ["Please provide a valid email"] } ∧
    handleValidationErrors [] = .next :=
  ⟨(c7_handleValidationErrors_spec ["Please provide a valid email"]).1 (by decide),
   (c7_handleValidationErrors_spec []).2 rfl⟩

/-- C9: decrypt ∘ encrypt is the identity under the same key: both use
the cipher keyed by the stored key (createCipher / createDecipher derive
the same key material from it), decrypt reads exactly the data and
authTag fields that encrypt produced, and the unused random iv is
irrelevant.  `hcipher` is the AES-256-GCM round-trip property of the
platform cipher. -/
theorem c9_encrypt_decrypt_roundtrip
    (enc : String → String → String × String)
    (dec : String → String → String → Option String)
    (hcipher : ∀ pw m, dec pw (enc pw m).1 (enc pw m).2 = some m)
    (key ivHex text : String) :
    decryptU dec key (encryptU enc key ivHex text) = some text := by
  simp [encryptU, decryptU, hcipher]

/-- Cipher instance used only to witness C9. -/
def witEnc : String → String → String × String := fun _ m => (m, "tag")

/-- Decryption side of the witness cipher. -/
def witDec : String → String → String → Option String := fun _ c _ => some c

/-- Witness for C9 at a concrete cipher, key, iv and plaintext. -/
theorem c9_encrypt_decrypt_roundtrip_witness :
    decryptU witDec "0a" (encryptU witEnc "0a" "ffff" "hello") = some "hello" :=
  c9_encrypt_decrypt_roundtrip witEnc witDec (fun _ _ => rfl) "0a" "ffff" "hello"

/-- C8: for every request guarded by protect, if the request carries no
bearer token, or the token fails JWT verification, or the user no longer
exists, protect responds 401 and the route handler is never invoked;
only requests presenting a valid bearer token for an existing user reach
the handler.  In fact protect answers 401 on every request: even a
verified token for an existing user hits the call to the nonexistent
`changedPasswordAfter` method, whose TypeError the inner catch turns
into a 401, so the handler is never reached at all and every 401
clause of the claim holds, the last one vacuously. -/
theorem c8_protect_rejects_all (verify : String → Option DecodedToken)
    (findById : String → Option AuthUser) (h : AuthHeaders) :
    (protect verify findById h = .reject 401 "Not authorized to access this route" ∨
      protect verify findById h = .reject 401 "User no longer exists") ∧
    ∀ u, protect verify findById h ≠ .proceed u := by
  have hcases :
      protect verify findById h = .reject 401 "Not authorized to access this route" ∨
      protect verify findById h = .reject 401 "User no longer exists" := by
    cases he : effToken h with
    | none => simp [protect, he]
    | some t =>
      cases hv : verify t with
      | none => simp [protect, he, hv]
      | some dec =>
        cases hf : findById dec.id with
        | none => simp [protect, he, hv, hf]
        | some u => simp [protect, he, hv, hf]
  refine ⟨hcases, fun u hu => ?_⟩
  rcases hcases with hc | hc <;> rw [hc] at hu <;> exact absurd hu (by simp)

/-- The data slice of any page p ≥ 1 is the p-th limit-sized window. -/
theorem paginate_data {α : Type} (arr : List α) (page limit : ℕ) (hp : 1 ≤ page) :
    (paginate arr page limit).data = (arr.drop ((page - 1) * limit)).take limit := by
  cases page with
  | zero => omega
  | succ k =>
      simp [paginate, jsSlice, Nat.succ_mul, Nat.add_sub_cancel_left]

/-- Concatenating the first k limit-sized windows yields the k·limit
prefix. -/
theorem windows_flatten {α : Type} (arr : List α) (limit : ℕ) :
    ∀ k : ℕ, ((List.range k).map (fun i => (arr.drop (i * limit)).take limit)).flatten =
      arr.take (k * limit) := by
  intro k
  induction k with
  | zero => simp
  | succ k ih =>
      rw [List.range_succ, List.map_append, List.flatten_append, ih]
      simp [Nat.succ_mul, List.take_add]

/-- jsCeilDiv covers the length. -/
theorem le_jsCeilDiv_mul (len limit : ℕ) (hl : 0 < limit) :
    len ≤ jsCeilDiv len limit * limit := by
  have hd := Nat.div_add_mod (len + limit - 1) limit
  have hm := Nat.mod_lt (len + limit - 1) hl
  unfold jsCeilDiv
  rw [Nat.mul_comm]
  generalize hX : limit * ((len + limit - 1) / limit) = X at hd ⊢
  omega

/-- jsCeilDiv is the least such multiplier. -/
theorem jsCeilDiv_le (len limit m : ℕ) (hl : 0 < limit) (h : len ≤ m * limit) :
    jsCeilDiv len limit ≤ m := by
  unfold jsCeilDiv
  rw [Nat.div_le_iff_le_mul_add_pred hl]
  rw [Nat.mul_comm] at h
  generalize hX : limit * m = X at h ⊢
  omega

/-- C10: for every array, limit ≥ 1 and page between 1 and the reported
totalPages, paginate returns total = length, totalPages = ⌈length /
limit⌉ (characterized as the least multiplier covering the length), data
= the slice from (page-1)·limit to page·limit, a next marker exactly
when page·limit < length, a previous marker exactly when page > 1, and
the pages 1..totalPages concatenate back to the array. -/
theorem c10_paginate_spec {α : Type} (arr : List α) (page limit : ℕ)
    (hl : 1 ≤ limit) (hp1 : 1 ≤ page)
    (hp2 : page ≤ (paginate arr page limit).totalPages) :
    (paginate arr page limit).total = arr.length ∧
    (arr.length ≤ (paginate arr page limit).totalPages * limit ∧
      ∀ m : ℕ, arr.length ≤ m * limit → (paginate arr page limit).totalPages ≤ m) ∧
    (paginate arr page limit).data = (arr.drop ((page - 1) * limit)).take limit ∧
    ((paginate arr page limit).next = some ⟨page + 1, limit⟩ ↔ page * limit < arr.length) ∧
    ((paginate arr page limit).previous = some ⟨page - 1, limit⟩ ↔ 1 < page) ∧
    ((List.range' 1 (paginate arr page limit).totalPages).map
        (fun p => (paginate arr p limit).data)).flatten = arr := by
  have hl0 : 0 < limit := hl
  refine ⟨rfl, ⟨le_jsCeilDiv_mul arr.length limit hl0,
    fun m hm => jsCeilDiv_le arr.length limit m hl0 hm⟩,
    paginate_data arr page limit hp1, ?_, ?_, ?_⟩
  · by_cases hc : page * limit < arr.length
    · exact iff_of_true (by simp [paginate, hc]) hc
    · exact iff_of_false (by simp [paginate, hc]) hc
  · have hprev : (0 < (page - 1) * limit) ↔ 1 < page := by
      constructor
      · intro h0
        by_contra hne
        have hz : page - 1 = 0 := by omega
        rw [hz, Nat.zero_mul] at h0
        omega
      · intro h1
        exact Nat.mul_pos (by omega) hl0
    by_cases hc : 0 < (page - 1) * limit
    · exact iff_of_true (by simp [paginate, hc]) (hprev.mp hc)
    · exact iff_of_false (by simp [paginate, hc]) (fun h1 => hc (hprev.mpr h1))
  · have hmap : (List.range' 1 (paginate arr page limit).totalPages).map
        (fun p => (paginate arr p limit).data) =
        (List.range' 1 (paginate arr page limit).totalPages).map
        (fun p => (arr.drop ((p - 1) * limit)).take limit) := by
      apply List.map_congr_left
      intro p hpmem
      have : 1 ≤ p := by
        have := (List.mem_range'_1.mp hpmem).1
        omega
      exact paginate_data arr p limit this
    rw [hmap, List.range'_eq_map_range, List.map_map]
    have hfun : ((fun p => (arr.drop ((p - 1) * limit)).take limit) ∘ (fun i => 1 + i)) =
        (fun i => (arr.drop (i * limit)).take limit) := by
      funext i
      simp
    rw [hfun, windows_flatten]
    exact List.take_of_length_le (le_jsCeilDiv_mul arr.length limit hl0)

/-- Witness for C10 on the 3-element array [10, 20, 30] with limit 2 and
page 2. -/
theorem c10_paginate_spec_witness :
    (paginate ([10, 20, 30] : List ℕ) 2 2).total = 3 ∧
    (paginate ([10, 20, 30] : List ℕ) 2 2).data =
      (([10, 20, 30] : List ℕ).drop ((2 - 1) * 2)).take 2 ∧
    ((List.range' 1 (paginate ([10, 20, 30] : List ℕ) 2 2).totalPages).map
        (fun p => (paginate ([10, 20, 30] : List ℕ) p 2).data)).flatten = [10, 20, 30] := by
  have h := c10_paginate_spec ([10, 20, 30] : List ℕ) 2 2 (by decide) (by decide) (by decide)
  exact ⟨h.1, h.2.2.1, h.2.2.2.2.2⟩

/-- The severity weights named by the spec (low=1, medium=2, high=3,
critical=4), as a total function. -/
def specWeight (s : String) : ℚ :=
  if s == "low" then 1
  else if s == "medium" then 2
  else if s == "high" then 3
  else if s == "critical" then 4
  else 0

/-- determineRiskLevel as claim C3 words it: low on the empty list,
otherwise thresholds on the weighted confidence sum. -/
def riskLevelSpec (threats : List Threat) : String :=
  if threats = [] then "low"
  else
    let w := (threats.map (fun t => t.confidence * specWeight t.severity)).sum
    if 3 ≤ w then "critical"
    else if 2 ≤ w then "high"
    else if 1 ≤ w then "medium"
    else "low"

/-- On the four schema severities the weights table is total. -/
theorem severityWeight_known (s : String)
    (h : s ∈ ["low", "medium", "high", "critical"]) :
    severityWeight s = some (specWeight s) := by
  fin_cases h <;> rfl

/-- The reduce of determineRiskLevel computes the weighted sum when all
severities are known. -/
theorem riskFold : ∀ (ts : List Threat),
    (∀ t ∈ ts, t.severity ∈ ["low", "medium", "high", "critical"]) →
    ∀ a : ℚ, ts.foldl riskStep (some a) =
      some (a + (ts.map (fun t => t.confidence * specWeight t.severity)).sum) := by
  intro ts
  induction ts with
  | nil => intro _ a; simp
  | cons t ts ih =>
      intro h a
      have hw := severityWeight_known t.severity (h t (by simp))
      have hstep : riskStep (some a) t = some (a + t.confidence * specWeight t.severity) := by
        simp [riskStep, hw]
      rw [List.foldl_cons, hstep, ih (fun u hu => h u (by simp [hu]))]
      simp [add_assoc]

/-- C3: for every list of detected threats (whose severities are the
four schema values), determineRiskLevel returns low for the empty list
and otherwise thresholds the weighted sum of confidence times severity
weight (low=1, medium=2, high=3, critical=4) at 3 / 2 / 1. -/
theorem c3_determineRiskLevel_spec (threats : List Threat)
    (h : ∀ t ∈ threats, t.severity ∈ ["low", "medium", "high", "critical"]) :
    determineRiskLevel threats = riskLevelSpec threats := by
  cases threats with
  | nil => rfl
  | cons t ts =>
      have hfold := riskFold (t :: ts) h 0
      simp only [determineRiskLevel, riskLevelSpec, List.isEmpty_cons]
      rw [hfold]
      simp

/-- Witness for C3 on a single high-severity threat of confidence 1. -/
theorem c3_determineRiskLevel_spec_witness :
    determineRiskLevel
        [{ type := some "phishing", confidence := 1, indicators := [], severity := "high" }] =
      riskLevelSpec
        [{ type := some "phishing", confidence := 1, indicators := [], severity := "high" }] ∧
    riskLevelSpec
        [{ type := some "phishing", confidence := 1, indicators := [], severity := "high" }] =
      "critical" := by
  constructor
  · exact c3_determineRiskLevel_spec _ (by simp)
  · simp [riskLevelSpec, specWeight]

/-- determineRiskLevel only ever answers one of the four risk levels. -/
theorem determineRiskLevel_mem (ts : List Threat) :
    determineRiskLevel ts ∈ ["low", "medium", "high", "critical"] := by
  unfold determineRiskLevel
  split
  · simp
  · split
    · simp
    · split
      · simp
      · split
        · simp
        · split
          · simp
          · simp

/-- C2: for every string input (and any tf·idf measures), analyzeContent
returns an analysis whose risk level is one of low / medium / high /
critical, whose confidence is the overall confidence of its (possibly
empty) threat list, and whose top-level indicators list is the (empty)
list the code initialises; the embedding is a total function, so no
error is raised on any string. -/
theorem c2_analyzeContent_total (measureFn : String → List JSDoc → ℕ → ℚ)
    (content : String) :
    (analyzeContentS measureFn freshEngine content).1.riskLevel ∈
      ["low", "medium", "high", "critical"] ∧
    (analyzeContentS measureFn freshEngine content).1.confidence =
      calculateOverallConfidence (analyzeContentS measureFn freshEngine content).1.threats ∧
    (analyzeContentS measureFn freshEngine content).1.indicators = [] := by
  refine ⟨?_, rfl, rfl⟩
  exact determineRiskLevel_mem _

/-- An initialized engine is left untouched by analyzeContent: nothing
in the call mutates the tfidf store or the flag. -/
theorem analyzeContentS_state (measureFn : String → List JSDoc → ℕ → ℚ)
    (σ : EngineState) (content : String) (h : σ.initialized = true) :
    (analyzeContentS measureFn σ content).2 = σ := by
  simp [analyzeContentS, h]

/-- Any call history starting from the constructed engine leaves the
state at freshEngine. -/
theorem runAnalyses_fresh (measureFn : String → List JSDoc → ℕ → ℚ)
    (cs : List String) : runAnalyses measureFn freshEngine cs = freshEngine := by
  induction cs with
  | nil => rfl
  | cons c cs ih =>
      show runAnalyses measureFn (analyzeContentS measureFn freshEngine c).2 cs = freshEngine
      rw [analyzeContentS_state measureFn freshEngine c rfl]
      exact ih

/-- C4: content analysis is deterministic and stateless: whatever
strings were analysed before (in any order), analysing the same string
yields the identical analysis. -/
theorem c4_analyzeContent_deterministic (measureFn : String → List JSDoc → ℕ → ℚ)
    (history₁ history₂ : List String) (content : String) :
    (analyzeContentS measureFn (runAnalyses measureFn freshEngine history₁) content).1 =
    (analyzeContentS measureFn (runAnalyses measureFn freshEngine history₂) content).1 := by
  rw [runAnalyses_fresh, runAnalyses_fresh]

/-- addScore only ever inserts the given key. -/
theorem addScore_keys {P : String → Prop} :
    ∀ (l : List (String × ℚ)) (k : String) (v : ℚ),
    (∀ p ∈ l, P p.1) → P k → ∀ p ∈ addScore l k v, P p.1 := by
  intro l
  induction l with
  | nil =>
      intro k v _ hk p hp
      simp [addScore] at hp
      simp [hp, hk]
  | cons q l ih =>
      intro k v hl hk p hp
      simp only [addScore] at hp
      split at hp
      · rcases List.mem_cons.mp hp with h1 | h1
        · simp [h1]
          exact hl q (by simp)
        · exact hl p (by simp [h1])
      · rcases List.mem_cons.mp hp with h1 | h1
        · exact hl p (by simp [h1])
        · exact ih k v (fun u hu => hl u (by simp [hu])) hk p h1

/-- The tfidfs reduce keeps every score key at "undefined" when every
document's `.category` read stringifies to "undefined". -/
theorem tfidf_scores_keys (measure : ℕ → ℚ) :
    ∀ (l : List (ℕ × JSDoc)) (init : List (String × ℚ) × ℚ),
    (∀ q ∈ l, jsKeyStr (categoryProp q.2) = "undefined") →
    (∀ p ∈ init.1, p.1 = "undefined") →
    ∀ p ∈ (l.foldl (tfidfStep measure) init).1, p.1 = "undefined" := by
  intro l
  induction l with
  | nil => intro init _ hi; simpa using hi
  | cons q l ih =>
      intro init h hi
      simp only [List.foldl_cons]
      apply ih
      · intro u hu
        exact h u (by simp [hu])
      · intro p hp
        exact @addScore_keys (fun s => s = "undefined") init.1
          (jsKeyStr (categoryProp q.2)) (measure q.1) hi (h q (by simp)) p hp

/-- The argmax over an all-"undefined" score list answers null or
"undefined". -/
theorem best_keys : ∀ (l : List (String × ℚ)) (b : ℚ × Option String),
    (∀ p ∈ l, p.1 = "undefined") →
    (b.2 = none ∨ b.2 = some "undefined") →
    ((l.foldl bestStep b).2 = none ∨ (l.foldl bestStep b).2 = some "undefined") := by
  intro l
  induction l with
  | nil => intro b _ hb; simpa using hb
  | cons q l ih =>
      intro b h hb
      simp only [List.foldl_cons]
      apply ih
      · intro u hu
        exact h u (by simp [hu])
      · unfold bestStep
        split
        · right
          simp [h q (by simp)]
        · exact hb

/-- C5 (the code as written): because natural's TfIdf stores the
training key under `__key`, the `documents[i].category` read is
undefined for every training document, every measure lands in the single
score bucket "undefined", and classifyWithTFIDF can only answer null or
the string "undefined" — never a training category such as "phishing",
whatever the tf·idf measures are. -/
theorem c5_classifyWithTFIDF_undefined (measure : ℕ → ℚ) :
    (classifyWithTFIDF measure trainingDocs).category = none ∨
    (classifyWithTFIDF measure trainingDocs).category = some "undefined" := by
  have hdocs : ∀ q ∈ trainingDocs.enum, jsKeyStr (categoryProp q.2) = "undefined" := by
    decide
  have hkeys := tfidf_scores_keys measure trainingDocs.enum ([], 0) hdocs (by simp)
  exact best_keys ((trainingDocs.enum.foldl (tfidfStep measure) ([], 0)).1) (0, none)
    hkeys (Or.inl rfl)

/-- C1 (amended): for every input string and every category of the
fixed pattern table, the confidence equals the match count (one per
case-insensitively matched keyword, one per matched regex, two per url
whose host contains a listed suspicious domain) divided by the total
number of that category's keywords and regex patterns; the confidence is
nonnegative — it can exceed 1 when suspicious-domain matches occur,
since those raise the numerator but not the denominator — and the threat
is reported detected exactly when the confidence strictly exceeds the
0.7 threshold. -/
theorem c1_detectThreatType_spec (content : String) (name : String)
    (tp : ThreatPatternsT) (h : (name, tp) ∈ THREAT_PATTERNS) :
    (detectThreatType content tp).confidence =
      (matchCount content tp : ℚ) / (totalPatterns tp : ℚ) ∧
    0 ≤ (detectThreatType content tp).confidence ∧
    ((detectThreatType content tp).detected = true ↔
      confidenceThreshold < (detectThreatType content tp).confidence) := by
  have hpos : 0 < totalPatterns tp := by
    fin_cases h <;> decide
  refine ⟨?_, ?_, ?_⟩
  · simp [detectThreatType, hpos]
  · simp only [detectThreatType, hpos, if_pos]
    positivity
  · simp [detectThreatType, hpos]

/-- Witness for C1 at the phishing category and the empty string. -/
theorem c1_detectThreatType_spec_witness :
    (("phishing", phishingPatterns) ∈ THREAT_PATTERNS) ∧
    ((detectThreatType "" phishingPatterns).detected = true ↔
      confidenceThreshold < (detectThreatType "" phishingPatterns).confidence) :=
  ⟨by decide, (c1_detectThreatType_spec "" "phishing" phishingPatterns (by decide)).2.2⟩

/-- A message of nine urls at a listed suspicious domain. -/
def c1Bad : String :=
  "http://paypal-security.com http://paypal-security.com http://paypal-security.com http://paypal-security.com http://paypal-security.com http://paypal-security.com http://paypal-security.com http://paypal-security.com http://paypal-security.com"

set_option maxRecDepth 100000 in
/-- C1 counterexample: on c1Bad each of the nine urls adds 2 to the
phishing match count while the denominator stays at the 17 keywords and
patterns, so the confidence is 18/17 > 1 — it does not lie between 0 and
1 as the claim states. -/
theorem c1_confidence_exceeds_one :
    1 < (detectThreatType c1Bad phishingPatterns).confidence := by
  have hm : matchCount c1Bad phishingPatterns = 18 := by decide
  have ht : totalPatterns phishingPatterns = 17 := by decide
  have hpos : 0 < totalPatterns phishingPatterns := by rw [ht]; norm_num
  have : (detectThreatType c1Bad phishingPatterns).confidence = (18 : ℚ) / 17 := by
    simp [detectThreatType, hpos, hm, ht]
  rw [this]
  norm_num

/-- The state after n consecutive correct answers on a fresh expert
session: counters at n, accuracy still 0 (only the pre-save hook writes
it), and score = 30·n from (n·10 + 0·2)·3 with no time penalty. -/
theorem addCorrectN_expert : ∀ n : ℕ,
    addCorrectN n (freshSession .expert) =
      { difficulty := .expert, score := 30 * (n : ℚ), timeSpent := 0,
        correctAnswers := n, totalQuestions := n, accuracy := 0,
        completed := false, questions := List.replicate n ⟨true⟩ } := by
  intro n
  induction n with
  | zero =>
      simp [addCorrectN, freshSession]
  | succ n ih =>
      rw [addCorrectN, ih]
      simp only [addQuestionResult, calculateScore, difficultyMultiplier]
      simp [GameSessionState.mk.injEq, List.replicate_succ']
      have h1 : max (0 : ℚ) (-300 / 10) = 0 := by norm_num
      rw [h1, sub_zero, max_eq_right (by positivity)]
      ring

/-- C6 (the code as written): thirty-four correct answers on an expert
session are reachable through addQuestionResult alone and drive the
score to (34·10)·3 = 1020, strictly above the schema's max of 1000 —
saving such a session fails its own schema validation. -/
theorem c6_score_exceeds_schema_max :
    ReachableSession (addCorrectN 34 (freshSession .expert)) ∧
    (addCorrectN 34 (freshSession .expert)).score = 1020 ∧
    1000 < (addCorrectN 34 (freshSession .expert)).score := by
  refine ⟨?_, ?_, ?_⟩
  · have hreach : ∀ (n : ℕ) (σ : GameSessionState),
        ReachableSession σ → ReachableSession (addCorrectN n σ) := by
      intro n
      induction n with
      | zero => intro σ hσ; exact hσ
      | succ n ih => intro σ hσ; exact ReachableSession.addQ _ (ih σ hσ)
    exact hreach 34 _ (ReachableSession.fresh .expert)
  · rw [addCorrectN_expert]
    norm_num
  · rw [addCorrectN_expert]
    norm_num
